import Mathlib

/-!
Shallow embedding of `src/octoprint/util/gcodeInterpreter.py` (the gcode
analyzer/simulator) and proofs about the claims of its specification.

Conventions of the embedding:
* Python floats are modelled as rationals (`ℚ`): exact rational
  arithmetic stands in for IEEE-754 double arithmetic.  This idealization
  is faithful for the control-flow, bookkeeping and error-handling
  properties proved below, but it cannot settle properties whose truth
  depends on double rounding (each float `+`/`-`/`*`/`/` rounds to 53-bit
  precision; the exact-rational versions do not).  The only irrational
  operation the analyzer's observable state depends on is the square root
  used for the move-time estimate; it is supplied as an abstract function
  `Env.sqrt : ℚ → ℚ`, and `math.pi` as `Env.pi : ℚ`.  No proof below
  depends on the numeric value of either.
* Exceptions are modelled with `Except PyErr`.  Statements whose evaluation
  raises in Python return `.error`; an uncaught exception short-circuits
  the rest of the scan, exactly as in the source.
* The external `zlib.decompress` is an oracle `Env.decompress`; base64
  decoding (`binascii.a2b_base64`, Python 2 semantics) is implemented.
* Lines are lists of characters; `charsOf` converts a string literal.
-/

deriving instance DecidableEq for Except

attribute [local semireducible] Rat.mul Rat.add Rat.sub Rat.inv Rat.ofScientific

namespace GcodeInterp

/-- Python-level exceptions that the embedded code can raise. -/
inductive PyErr where
  | typeError
  | attributeError
  | zeroDivisionError
  | indexError
  | valueError
  | binasciiError
  | zlibError
  | analysisAborted
  | callbackError
deriving DecidableEq, Repr

def charsOf (s : String) : List Char := s.data

/-! ### Numeric parsing (`int(...)` / `float(...)` on substrings) -/

def digitsToNat (l : List Char) : ℕ :=
  l.foldl (fun a c => a * 10 + (c.toNat - 48)) 0

/-- Cast `ℕ → ℚ` through `ℤ` (kernel-reducible, unlike the bundled
`Nat.cast`). -/
def qOfNat (n : ℕ) : ℚ := ((n : ℤ) : ℚ)

/-- Kernel-reducible `10 ^ n` on `ℚ`. -/
def qpow10 : ℕ → ℚ
  | 0 => 1
  | n + 1 => qpow10 n * 10

/-- Python `str.strip()`: remove whitespace from both ends. -/
def trimChars (l : List Char) : List Char :=
  ((l.dropWhile Char.isWhitespace).reverse.dropWhile Char.isWhitespace).reverse

/-- Python `int(text)`: optional sign followed by digits, else `ValueError`
(modelled as `none`). -/
def pyInt (l : List Char) : Option ℤ :=
  let t := trimChars l
  let p : ℤ × List Char :=
    match t with
    | '+' :: r => (1, r)
    | '-' :: r => (-1, r)
    | _ => (1, t)
  if p.2 ≠ [] ∧ p.2.all Char.isDigit then some (p.1 * digitsToNat p.2) else none

def parseExpPart (base : ℚ) (l : List Char) : Option ℚ :=
  let p : ℤ × List Char :=
    match l with
    | '+' :: r => (1, r)
    | '-' :: r => (-1, r)
    | _ => (1, l)
  let d := p.2.span Char.isDigit
  if d.1 = [] ∨ d.2 ≠ [] then none
  else if p.1 < 0 then some (base / qpow10 (digitsToNat d.1))
  else some (base * qpow10 (digitsToNat d.1))

/-- Python `float(text)` as the exact rational value of a decimal/exponent
literal.  The `nan`/`inf`/`infinity` spellings are not modelled (every
judged path either filters non-finite values to "absent" or never sees
them); overflow of large finite literals to infinity is applied by
`getCodeFloat`, the one caller that filters non-finite values. -/
def pyFloat (l : List Char) : Option ℚ :=
  let t := trimChars l
  let p : ℚ × List Char :=
    match t with
    | '+' :: r => (1, r)
    | '-' :: r => (-1, r)
    | _ => (1, t)
  let ip := p.2.span Char.isDigit
  match ip.2 with
  | [] => if ip.1 = [] then none else some (p.1 * qOfNat (digitsToNat ip.1))
  | '.' :: r2 =>
    let fp := r2.span Char.isDigit
    if ip.1 = [] ∧ fp.1 = [] then none
    else
      let base : ℚ := p.1 * (qOfNat (digitsToNat ip.1) + qOfNat (digitsToNat fp.1) / qpow10 fp.1.length)
      match fp.2 with
      | [] => some base
      | 'e' :: r4 => parseExpPart base r4
      | 'E' :: r4 => parseExpPart base r4
      | _ => none
  | 'e' :: r2 => if ip.1 = [] then none else parseExpPart (p.1 * qOfNat (digitsToNat ip.1)) r2
  | 'E' :: r2 => if ip.1 = [] then none else parseExpPart (p.1 * qOfNat (digitsToNat ip.1)) r2
  | _ => none

/-! ### The parameter tokenizer (`getCodeInt` / `getCodeFloat`) -/

/-- Python `line.find(c, start)`: index of the first occurrence of `c` at or after
`start`, or `none` (Python returns `-1`). -/
def findCharFrom (l : List Char) (c : Char) (start : ℕ) : Option ℕ :=
  match (l.drop start).findIdx? (fun d => d = c) with
  | none => none
  | some i => some (start + i)

/-- Embeds `getCodeInt(line, code)`: first occurrence of the letter anywhere in the
line, then `int` of the text up to the next space or end of line. -/
def getCodeInt (line : List Char) (code : Char) : Option ℤ :=
  match findCharFrom line code 0 with
  | none => none
  | some idx =>
    let n := idx + 1
    match findCharFrom line ' ' n with
    | none => pyInt (line.drop n)
    | some m => pyInt ((line.drop n).take (m - n))

/-- The smallest magnitude at which decimal-to-binary64 conversion rounds
to infinity under round-to-nearest-even: `2^1024 - 2^970` (the midpoint
between the largest finite double and `2^1024`; the tie itself rounds to
the even candidate, infinity).  Built by repeated squaring
(`970 = 512 + 256 + 128 + 64 + 8 + 2`) so evaluation stays shallow. -/
def floatOverflowBound : ℚ :=
  let p1 : ℚ := 2
  let p2 := p1 * p1
  let p4 := p2 * p2
  let p8 := p4 * p4
  let p16 := p8 * p8
  let p32 := p16 * p16
  let p64 := p32 * p32
  let p128 := p64 * p64
  let p256 := p128 * p128
  let p512 := p256 * p256
  let p1024 := p512 * p512
  p1024 - p512 * p256 * p128 * p64 * p8 * p2

/-- The non-finite filter of source line 528: a parsed value whose
magnitude overflows the double range (`float` returns infinity) is
treated as absent. -/
def finiteOnly (v : Option ℚ) : Option ℚ :=
  match v with
  | some v => if |v| < floatOverflowBound then some v else none
  | none => none

/-- Embeds `getCodeFloat(line, code)`: like `getCodeInt` but `float`, with
non-finite results filtered to "absent" (`finiteOnly`; also see
`pyFloat`). -/
def getCodeFloat (line : List Char) (code : Char) : Option ℚ :=
  match findCharFrom line code 0 with
  | none => none
  | some idx =>
    let n := idx + 1
    match findCharFrom line ' ' n with
    | none => finiteOnly (pyFloat (line.drop n))
    | some m => finiteOnly (pyFloat ((line.drop n).take (m - n)))

/-! ### Vector and bounding-box value types -/

/-- The `Vector3D` value type: a 3-component vector over the rationals. -/
structure Vector3D where
  x : ℚ
  y : ℚ
  z : ℚ
deriving DecidableEq, Repr

instance : Add Vector3D := ⟨fun a b => ⟨a.x + b.x, a.y + b.y, a.z + b.z⟩⟩

instance : Sub Vector3D := ⟨fun a b => ⟨a.x - b.x, a.y - b.y, a.z - b.z⟩⟩

instance : Neg Vector3D := ⟨fun a => ⟨-a.x, -a.y, -a.z⟩⟩

instance : HMul Vector3D ℚ Vector3D := ⟨fun a q => ⟨a.x * q, a.y * q, a.z * q⟩⟩

theorem Vector3D.add_def (a b : Vector3D) : a + b = ⟨a.x + b.x, a.y + b.y, a.z + b.z⟩ := rfl

theorem Vector3D.sub_def (a b : Vector3D) : a - b = ⟨a.x - b.x, a.y - b.y, a.z - b.z⟩ := rfl

theorem Vector3D.mul_def (a : Vector3D) (q : ℚ) : a * q = ⟨a.x * q, a.y * q, a.z * q⟩ := rfl

/-- Squared Euclidean length; `Vector3D.length` in the source is
`Env.sqrt` of this. -/
def Vector3D.len2 (a : Vector3D) : ℚ := a.x * a.x + a.y * a.y + a.z * a.z

/-- The `MinMax3D` tracker: componentwise running min/max, each component initially
unset (`Vector3D(None, None, None)` in the source). -/
structure MinMax3D where
  minX : Option ℚ
  minY : Option ℚ
  minZ : Option ℚ
  maxX : Option ℚ
  maxY : Option ℚ
  maxZ : Option ℚ
deriving DecidableEq, Repr

def mmMin (cur : Option ℚ) (v : ℚ) : Option ℚ :=
  match cur with
  | none => some v
  | some m => some (if v < m then v else m)

def mmMax (cur : Option ℚ) (v : ℚ) : Option ℚ :=
  match cur with
  | none => some v
  | some m => some (if v > m then v else m)

def MinMax3D.record (m : MinMax3D) (p : Vector3D) : MinMax3D :=
  { minX := mmMin m.minX p.x, minY := mmMin m.minY p.y, minZ := mmMin m.minZ p.z,
    maxX := mmMax m.maxX p.x, maxY := mmMax m.maxY p.y, maxZ := mmMax m.maxZ p.z }

/-! ### Environment and machine state -/

/-- External collaborators of one analysis run: the square-root and pi of
`math` (abstract rational stand-ins for the float routines), configuration
(`maxExtruders` bound, per-tool nozzle offset table from the printer
profile) and the `zlib.decompress` oracle (bytes in, text out; `.error`
models `zlib.error`). -/
structure Env where
  sqrt : ℚ → ℚ
  pi : ℚ
  maxExtruders : ℤ
  offsets : List (ℚ × ℚ)
  decompress : List ℕ → Except Unit (List Char)

/-- The mutable state of `gcode._load` (the local `memory` class together
with the `self._filamentDiameter` / `self._minMax` fields it updates).
`flowrate_ultiplicator` mirrors the misspelled attribute the source's
`M221` handler assigns (line 462): Python creates it dynamically on first
assignment; it is never read anywhere.  Its initial value is irrelevant
and chosen as `1`. -/
structure GState where
  pos : Vector3D
  posOffset : Vector3D
  currentE : List ℚ
  totalExtrusion : List ℚ
  maxExtrusion : List ℚ
  currentExtruder : ℕ
  totalMoveTimeMinute : ℚ
  absoluteE : Bool
  scale : ℚ
  posAbs : Bool
  fwretractTime : ℚ
  fwretractDist : ℚ
  fwrecoverTime : ℚ
  feedrate_multiplicator : ℚ
  flowrate_multiplicator : ℚ
  flowrate_ultiplicator : ℚ
  feedrate : ℚ
  filamentDiameter : ℚ
  minMax : MinMax3D
deriving DecidableEq, Repr

/-- Initial `memory` state.  The seed feedrate is
`min(profile.axes.x.speed, profile.axes.y.speed)`, replaced by `2000` when
that minimum is zero. -/
def initMemory (speedX speedY : ℚ) : GState :=
  let fr := min speedX speedY
  { pos := ⟨0, 0, 0⟩
    posOffset := ⟨0, 0, 0⟩
    currentE := [0]
    totalExtrusion := [0]
    maxExtrusion := [0]
    currentExtruder := 0
    totalMoveTimeMinute := 0
    absoluteE := true
    scale := 1
    posAbs := true
    fwretractTime := 0
    fwretractDist := 0
    fwrecoverTime := 0
    feedrate_multiplicator := 1
    flowrate_multiplicator := 1
    flowrate_ultiplicator := 1
    feedrate := if fr = 0 then 2000 else fr
    filamentDiameter := 0
    minMax := ⟨none, none, none, none, none, none⟩ }

/-! ### Command handlers -/

/-- The extrusion delta of a move: the raw `E` value, made relative by
subtracting the tool's tracked current value when extrusion mode is
absolute; `0.0` when `E` is absent. -/
def extrudeDelta (st : GState) (e : Option ℚ) : ℚ :=
  match e with
  | none => 0
  | some e0 => if st.absoluteE then e0 - st.currentE.getD st.currentExtruder 0 else e0

/-- Embeds `g0_g1_command(x, y, z, e, f)` (source lines 230-265).  Unset axes
default to the current position; in absolute mode
`pos = newPos * scale + posOffset`, in relative mode
`pos += newPos * scale`.  A present nonzero `F` updates the feedrate.  A
positive extrusion delta records the position in the bounding box and
bumps the cumulative and running-maximum arrays.  The time estimate adds
`max(|length(oldPos - pos)| / feedrate, |delta| / feedrate)`. -/
def g0_g1_command (env : Env) (st : GState) (x y z e f : Option ℚ) : GState :=
  let newPos : Vector3D := ⟨x.getD st.pos.x, y.getD st.pos.y, z.getD st.pos.z⟩
  let pos' := if st.posAbs then newPos * st.scale + st.posOffset else st.pos + newPos * st.scale
  let feedrate' :=
    match f with
    | some fv => if fv ≠ 0 then fv else st.feedrate
    | none => st.feedrate
  let cur := st.currentExtruder
  let eF := extrudeDelta st e
  let total' := if 0 < eF then st.totalExtrusion.set cur (st.totalExtrusion.getD cur 0 + eF)
                else st.totalExtrusion
  { st with
    pos := pos'
    feedrate := feedrate'
    totalExtrusion := total'
    currentE := if 0 < eF then st.currentE.set cur (st.currentE.getD cur 0 + eF) else st.currentE
    maxExtrusion := if 0 < eF then
        st.maxExtrusion.set cur (max (st.maxExtrusion.getD cur 0) (total'.getD cur 0))
      else st.maxExtrusion
    minMax := if 0 < eF then st.minMax.record pos' else st.minMax
    totalMoveTimeMinute := st.totalMoveTimeMinute +
      max (|env.sqrt (Vector3D.len2 (st.pos - pos')) / feedrate'|) (|eF / feedrate'|) }

/-- Embeds `g2_g3_command(target, offset, e, f, clockwise)` (source lines
267-323).  The body computes radius, center and the angular sweep (pure
float trigonometry with no state effect), then unconditionally evaluates
`self._memory.position == target` (line 284); the `gcode` object has no
`_memory` attribute (and the local state class is `memory` with field
`pos`), so every call that reaches line 284 raises `AttributeError`.
Calls that do not reach it raise `TypeError` earlier, from arithmetic on
`None`: at line 268 (`math.hypot(offset.x, offset.y)`) when `I` or `J` is
absent, at line 272 (`extruder_travel -= currentE[...]`) when `E` is
absent in absolute extrusion mode, and at line 275 (`target - center`)
when `X` or `Y` is absent.  No segment is ever emitted, so the discarded
pure computations are not reproduced here. -/
def g2_g3_command (st : GState) (x y i j e : Option ℚ) : Except PyErr GState :=
  match i, j with
  | some _, some _ =>
    if st.absoluteE ∧ e = none then .error .typeError
    else
      match x, y with
      | some _, some _ => .error .attributeError
      | _, _ => .error .typeError
  | _, _ => .error .typeError

/-- The `G92` handler (source lines 434-444).  Faithful to the source's
indentation: the `posOffset` rebase statement is nested inside the
`if e is not None:` block, so a `G92` without an `E` word changes
nothing. -/
def g92_command (st : GState) (x y z e : Option ℚ) : GState :=
  match e with
  | none => st
  | some ev =>
    { st with
      currentE := st.currentE.set st.currentExtruder ev
      posOffset :=
        ⟨match x with | some xv => st.pos.x - xv | none => st.posOffset.x,
         match y with | some yv => st.pos.y - yv | none => st.posOffset.y,
         match z with | some zv => st.pos.z - zv | none => st.posOffset.z⟩ }

/-- The XY nozzle offset of tool `i`:
`offsets[i] if i < len(offsets) else 0.0` (per component). -/
def toolOffset (env : Env) (i : ℕ) : ℚ × ℚ :=
  if i < env.offsets.length then env.offsets.getD i (0, 0) else (0, 0)

/-- Lazily extend a tool-indexed array with zeros up to index `n`
(source's append loops, lines 478-486). -/
def extendTo (l : List ℚ) (n : ℕ) : List ℚ :=
  l ++ List.replicate (n + 1 - l.length) 0

/-- Tool-select handler (source lines 464-486).  An index above the
configured maximum is logged and ignored.  Otherwise the outgoing tool's
nozzle offset is subtracted from the accumulated position offset, the
active tool switches, the incoming tool's offset is added, and the three
per-tool arrays are lazily grown.  The source stores the raw parsed
integer as the tool index; a negative index (Python's negative-index list
semantics) is clamped to `0` here — no claim concerns negative `T`
words. -/
def t_command (env : Env) (st : GState) (t : ℤ) : GState :=
  if env.maxExtruders < t then st
  else
    let cur := st.currentExtruder
    let sub := toolOffset env cur
    let off1 := st.posOffset - Vector3D.mk sub.1 sub.2 0
    let cur' := t.toNat
    let add := toolOffset env cur'
    let off2 := off1 + Vector3D.mk add.1 add.2 0
    { st with
      posOffset := off2
      currentExtruder := cur'
      currentE := if st.currentE.length ≤ cur' then extendTo st.currentE cur' else st.currentE
      maxExtrusion := if st.maxExtrusion.length ≤ cur' then extendTo st.maxExtrusion cur'
                      else st.maxExtrusion
      totalExtrusion := if st.totalExtrusion.length ≤ cur' then extendTo st.totalExtrusion cur'
                        else st.totalExtrusion }

/-! ### Metadata extractor (comment handling, lines 344-367 and 501-502) -/

/-- One 6-bit value of the base64 alphabet. -/
def b64Val (c : Char) : Option ℕ :=
  if 'A' ≤ c ∧ c ≤ 'Z' then some (c.toNat - 65)
  else if 'a' ≤ c ∧ c ≤ 'z' then some (c.toNat - 97 + 26)
  else if '0' ≤ c ∧ c ≤ '9' then some (c.toNat - 48 + 52)
  else if c = '+' then some 62
  else if c = '/' then some 63
  else none

/-- First upcoming character that is either the pad `=` or in the base64
alphabet (CPython's `binascii_find_valid`). -/
def nextValid : List Char → Option Char
  | [] => none
  | c :: rest => if c = '=' ∨ (b64Val c).isSome then some c else nextValid rest

/-- Worker for `binascii.a2b_base64` (Python 2): characters outside the
alphabet are skipped.  A pad `=` is skipped while fewer than two
characters of the current quantum have been seen, and also when exactly
two have been seen but the next pad-or-alphabet character is not another
`=`; otherwise it ends decoding.  Leftover characters at the end raise
`binascii.Error("Incorrect padding")`. -/
def a2bAux : List Char → ℕ → ℕ → List ℕ → Except PyErr (List ℕ)
  | [], quadPos, _, out => if quadPos = 0 then .ok out.reverse else .error .binasciiError
  | c :: rest, quadPos, acc, out =>
    if c = '=' then
      if quadPos < 2 then a2bAux rest quadPos acc out
      else if quadPos = 2 ∧ nextValid rest ≠ some '=' then a2bAux rest quadPos acc out
      else .ok out.reverse
    else
      match b64Val c with
      | none => a2bAux rest quadPos acc out
      | some v =>
        match quadPos with
        | 0 => a2bAux rest 1 v out
        | 1 => a2bAux rest 2 ((acc * 64 + v) % 16) ((acc * 64 + v) / 16 :: out)
        | 2 => a2bAux rest 3 ((acc * 64 + v) % 4) ((acc * 64 + v) / 4 :: out)
        | _ => a2bAux rest 0 0 ((acc * 64 + v) :: out)

/-- Embeds `base64.b64decode` on the text after the profile-string marker. -/
def a2b_base64 (l : List Char) : Except PyErr (List ℕ) := a2bAux l 0 0 []

def fdChars : List Char := charsOf "filament_diameter"

def curaChars : List Char := charsOf "CURA_PROFILE_STRING"

def curaOctoChars : List Char := charsOf "CURA_OCTO_PROFILE_STRING"

def curaColonChars : List Char := charsOf "CURA_PROFILE_STRING:"

def curaOctoColonChars : List Char := charsOf "CURA_OCTO_PROFILE_STRING:"

/-- Embeds `_parseCuraProfileString(comment, prefix)` (source lines 501-502):
strip the marker, base64-decode, inflate, split the text on the reserved
`"\b"` byte, split each record once at `=`.  Completely unguarded: a bad
encoding, a corrupt stream or a record without `=` (tuple unpacking of a
1-element list raises `ValueError`) all propagate. -/
def parseCuraProfileString (env : Env) (comment : List Char) (markerLen : ℕ) :
    Except PyErr (List (List Char × List Char)) :=
  match a2b_base64 (comment.drop markerLen) with
  | .error e => .error e
  | .ok bytes =>
    match env.decompress bytes with
    | .error _ => .error .zlibError
    | .ok data =>
      (data.splitOn (Char.ofNat 8)).mapM fun r =>
        match r.findIdx? (fun c => c = '=') with
        | none => .error PyErr.valueError
        | some i => .ok (r.take i, r.drop (i + 1))

/-- Python dict built from key/value pairs: a later binding of the same
key wins. -/
def dictGet (pairs : List (List Char × List Char)) (key : List Char) : Option (List Char) :=
  (pairs.reverse.find? (fun p => decide (p.1 = key))).map Prod.snd

/-- The filament diameter derived from a comment (source lines 344-366):
`some d` means "overwrite the detected diameter with `d`", `none` means
"leave it alone".  The `filament_diameter=<v>` form guards only the float
conversions (falling back to the first comma-component, then to `0.0`);
a missing `=` raises `IndexError` from `split("=", 1)[1]`.  The
compressed-profile form calls `parseCuraProfileString` unguarded and only
guards the final float conversion. -/
def commentDiameter (env : Env) (comment : List Char) : Except PyErr (Option ℚ) :=
  if fdChars.isPrefixOf comment then
    match comment.findIdx? (fun c => c = '=') with
    | none => .error .indexError
    | some i =>
      let filamentValue := trimChars (comment.drop (i + 1))
      match pyFloat filamentValue with
      | some d => .ok (some d)
      | none =>
        match pyFloat (trimChars ((filamentValue.splitOn ',').headD [])) with
        | some d => .ok (some d)
        | none => .ok (some 0)
  else if curaChars.isPrefixOf comment ∨ curaOctoChars.isPrefixOf comment then
    match parseCuraProfileString env comment
      (if curaChars.isPrefixOf comment then curaColonChars.length
       else curaOctoColonChars.length) with
    | .error e => .error e
    | .ok opts =>
      match dictGet opts fdChars with
      | none => .ok none
      | some v =>
        match pyFloat v with
        | some d => .ok (some d)
        | none => .ok (some 0)
  else .ok none

/-- Per-line comment step (source lines 344-367): when `;` occurs, the
text after it is stripped and examined for metadata (possibly updating the
detected filament diameter, possibly raising), and the line is truncated
at the `;`. -/
def commentStep (env : Env) (st : GState) (line : List Char) :
    Except PyErr (GState × List Char) :=
  match line.findIdx? (fun c => c = ';') with
  | none => .ok (st, line)
  | some i =>
    match commentDiameter env (trimChars (line.drop (i + 1))) with
    | .error e => .error e
    | .ok none => .ok (st, line.take i)
    | .ok (some d) => .ok ({ st with filamentDiameter := d }, line.take i)

/-! ### Dispatch and the scan loop (`gcode._load`, lines 325-499) -/

/-- Motion-family dispatch (`G` codes, source lines 373-444).  `G0`/`G1`
apply the flow and feed multipliers to `E` and `F` before the move;
`G2`/`G3` build the arc command (which always raises, see
`g2_g3_command`); `G4` adds dwell time; `G10`/`G11` add the firmware
retract/recover durations; `G20`/`G21` set the unit scale; `G28` homes the
given axes (all axes when none is given); `G90`/`G91` set the position
mode; `G92` resets position/extrusion; any other `G` value is ignored. -/
def gDispatch (env : Env) (st : GState) (line : List Char) (g : ℤ) : Except PyErr GState :=
  if g = 0 ∨ g = 1 then
    .ok (g0_g1_command env st (getCodeFloat line 'X') (getCodeFloat line 'Y')
      (getCodeFloat line 'Z')
      ((getCodeFloat line 'E').map (fun v => v * st.flowrate_multiplicator))
      ((getCodeFloat line 'F').map (fun v => v * st.feedrate_multiplicator)))
  else if g = 2 ∨ g = 3 then
    g2_g3_command st (getCodeFloat line 'X') (getCodeFloat line 'Y')
      (getCodeFloat line 'I') (getCodeFloat line 'J')
      ((getCodeFloat line 'E').map (fun v => v * st.flowrate_multiplicator))
  else if g = 4 then
    .ok { st with totalMoveTimeMinute :=
      match getCodeFloat line 'P' with
      | some pv =>
        (match getCodeFloat line 'S' with
         | some sv => st.totalMoveTimeMinute + sv / 60
         | none => st.totalMoveTimeMinute) + pv / 60 / 1000
      | none =>
        match getCodeFloat line 'S' with
        | some sv => st.totalMoveTimeMinute + sv / 60
        | none => st.totalMoveTimeMinute }
  else if g = 10 then
    .ok { st with totalMoveTimeMinute := st.totalMoveTimeMinute + st.fwretractTime }
  else if g = 11 then
    .ok { st with totalMoveTimeMinute := st.totalMoveTimeMinute + st.fwrecoverTime }
  else if g = 20 then .ok { st with scale := (254 : ℚ) / 10 }
  else if g = 21 then .ok { st with scale := 1 }
  else if g = 28 then
    .ok { st with pos :=
      if getCodeFloat line 'X' = none ∧ getCodeFloat line 'Y' = none ∧
          getCodeFloat line 'Z' = none then ⟨0, 0, 0⟩
      else ⟨if (getCodeFloat line 'X').isSome then 0 else st.pos.x,
            if (getCodeFloat line 'Y').isSome then 0 else st.pos.y,
            if (getCodeFloat line 'Z').isSome then 0 else st.pos.z⟩ }
  else if g = 90 then .ok { st with posAbs := true }
  else if g = 91 then .ok { st with posAbs := false }
  else if g = 92 then
    .ok (g92_command st (getCodeFloat line 'X') (getCodeFloat line 'Y')
      (getCodeFloat line 'Z') (getCodeFloat line 'E'))
  else .ok st

/-- Miscellaneous-family dispatch (`M` codes, source lines 445-462).
`M82`/`M83` set extrusion mode; `M207`/`M208` derive the firmware
retract/recover durations (a zero `F` raises `ZeroDivisionError`); `M220`
sets the feedrate multiplier from `S/100`; `M221` assigns `S/100` to the
misspelled `flowrate_ultiplicator` attribute, leaving the multiplier that
moves actually read untouched.  `M220`/`M221` without an integer `S` word
raise `TypeError` (`None / 100.0`). -/
def mDispatch (st : GState) (line : List Char) (m : ℤ) : Except PyErr GState :=
  if m = 82 then .ok { st with absoluteE := true }
  else if m = 83 then .ok { st with absoluteE := false }
  else if m = 207 ∨ m = 208 then
    match getCodeFloat line 'S', getCodeFloat line 'F' with
    | some sv, some fv =>
      if fv = 0 then .error .zeroDivisionError
      else if m = 207 then .ok { st with fwretractTime := sv / fv, fwretractDist := sv }
      else .ok { st with fwrecoverTime := (st.fwretractDist + sv) / fv }
    | _, _ => .ok st
  else if m = 220 then
    match getCodeInt line 'S' with
    | none => .error .typeError
    | some sv => .ok { st with feedrate_multiplicator := (sv : ℚ) / 100 }
  else if m = 221 then
    match getCodeInt line 'S' with
    | none => .error .typeError
    | some sv => .ok { st with flowrate_ultiplicator := (sv : ℚ) / 100 }
  else .ok st

/-- Command-family dispatch for one (comment-stripped) line: `G` first,
then `M`, then `T`, exactly one family per line. -/
def dispatch (env : Env) (st : GState) (line : List Char) : Except PyErr GState :=
  match getCodeInt line 'G' with
  | some g => gDispatch env st line g
  | none =>
    match getCodeInt line 'M' with
    | some m => mDispatch st line m
    | none =>
      match getCodeInt line 'T' with
      | some t => .ok (t_command env st t)
      | none => .ok st

/-- Process one raw line: comment handling first (which may raise), then
dispatch on the truncated line. -/
def interpretLine (env : Env) (st : GState) (line : List Char) : Except PyErr GState :=
  match commentStep env st line with
  | .error e => .error e
  | .ok (st', line') => dispatch env st' line'

/-- Interpret a sequence of lines, stopping at the first uncaught
exception. -/
def runLines (env : Env) : List (List Char) → GState → Except PyErr GState
  | [], st => .ok st
  | l :: rest, st =>
    match interpretLine env st l with
    | .error e => .error e
    | .ok st' => runLines env rest st'

/-- The scan loop of `_load` over an in-memory list of lines.  `flag i` is
the value of the caller-settable abort flag when it is checked before
processing line `i` (0-based); a set flag raises `AnalysisAborted`.  The
periodic progress callback (every 1000 lines, with `filePos / total`) is
wrapped in a bare `try/except: pass`, so its result is discarded.  Errors
carry the loop position at which they were raised. -/
def loadAux (env : Env) (flag : ℕ → Bool) (cb : ℚ → Except Unit Unit) (total : ℕ) :
    List (List Char) → ℕ → GState → Except (PyErr × ℕ) GState
  | [], _, st => .ok st
  | l :: rest, filePos, st =>
    if flag filePos then .error (.analysisAborted, filePos)
    else
      let percentage : ℚ := qOfNat (filePos + 1) / qOfNat total
      let _ := if (filePos + 1) % 1000 = 0 then cb percentage else .ok ()
      match interpretLine env st l with
      | .error e => .error (e, filePos + 1)
      | .ok st' => loadAux env flag cb total rest (filePos + 1) st'

/-- The aggregate outputs assembled after a completed scan (source lines
494-499), together with the final machine state. -/
structure AnalysisResult where
  extrusionAmount : List ℚ
  extrusionVolume : List ℚ
  totalMoveTimeMinute : ℚ
  state : GState
deriving DecidableEq, Repr

/-- Embeds `gcode._load` for a list input: run the loop, then invoke the final
progress callback with `100.0` — this call is **not** wrapped in
`try/except`, so a callback exception propagates and no result is
assembled — then aggregate: reported extrusion per tool is the running
maximum, volume is `length * (pi * (diameter/2)^2) / 1000`. -/
def loadList (env : Env) (flag : ℕ → Bool) (cb : ℚ → Except Unit Unit)
    (lines : List (List Char)) (st0 : GState) : Except (PyErr × ℕ) AnalysisResult :=
  match loadAux env flag cb lines.length lines 0 st0 with
  | .error e => .error e
  | .ok st =>
    match cb 100 with
    | .error _ => .error (.callbackError, lines.length)
    | .ok _ =>
      .ok { extrusionAmount := st.maxExtrusion
            extrusionVolume := st.maxExtrusion.map
              (fun a => a * (env.pi * (st.filamentDiameter / 2) * (st.filamentDiameter / 2)) / 1000)
            totalMoveTimeMinute := st.totalMoveTimeMinute
            state := st }

/-! ### Concrete instances used by witnesses and counterexamples -/

/-- A concrete environment: the abstract square root and pi are set to
constants (no claim depends on their values), ten extruders allowed, two
tools with distinct nozzle offsets, and an inflate oracle that always
succeeds with empty output. -/
def env0 : Env :=
  { sqrt := fun _ => 0
    pi := 0
    maxExtruders := 10
    offsets := [(0, 0), (18, 5)]
    decompress := fun _ => .ok [] }

/-- Initial state for profile axis speeds 6000/6000. -/
def gInit : GState := initMemory 6000 6000

/-- Returns `true` on `.ok` results. -/
def exceptOk {ε α : Type} : Except ε α → Bool
  | .ok _ => true
  | .error _ => false

/-! ### List helper lemmas -/

theorem getD_set_le : ∀ (l : List ℚ) (c : ℕ) (v : ℚ), l.getD c 0 ≤ v →
    ∀ i, l.getD i 0 ≤ (l.set c v).getD i 0
  | [], _, _, _, _ => le_refl _
  | _ :: _, 0, _, hv, 0 => hv
  | _ :: _, 0, _, _, _ + 1 => le_refl _
  | _ :: _, _ + 1, _, _, 0 => le_refl _
  | _ :: as, c + 1, v, hv, i + 1 => getD_set_le as c v hv i

theorem getD_replicate_zero : ∀ (k i : ℕ), (List.replicate k (0 : ℚ)).getD i 0 = 0
  | 0, _ => rfl
  | _ + 1, 0 => rfl
  | k + 1, i + 1 => getD_replicate_zero k i

theorem getD_append_zeros : ∀ (l : List ℚ) (k i : ℕ),
    (l ++ List.replicate k 0).getD i 0 = l.getD i 0
  | [], k, i => getD_replicate_zero k i
  | _ :: _, _, 0 => rfl
  | _ :: as, k, i + 1 => getD_append_zeros as k i

theorem length_extend_if (l : List ℚ) (n : ℕ) :
    (if l.length ≤ n then extendTo l n else l).length = max l.length (n + 1) := by
  split
  · simp only [extendTo, List.length_append, List.length_replicate]
    omega
  · omega

theorem getD_extend_if (l : List ℚ) (n i : ℕ) :
    (if l.length ≤ n then extendTo l n else l).getD i 0 = l.getD i 0 := by
  split
  · exact getD_append_zeros l _ i
  · rfl

/-! ### The tool-array invariant (claim C9) -/

/-- The three tool-indexed arrays always share one length. -/
def ArrInv (st : GState) : Prop :=
  st.currentE.length = st.totalExtrusion.length ∧
  st.currentE.length = st.maxExtrusion.length

/-- How one interpreter step relates the tool-indexed arrays of the state
before and after: the shared-length invariant is preserved, no array
shrinks, and the running maximum grows pointwise. -/
def StepArr (st st' : GState) : Prop :=
  (ArrInv st → ArrInv st') ∧
  st.currentE.length ≤ st'.currentE.length ∧
  st.totalExtrusion.length ≤ st'.totalExtrusion.length ∧
  st.maxExtrusion.length ≤ st'.maxExtrusion.length ∧
  ∀ i, st.maxExtrusion.getD i 0 ≤ st'.maxExtrusion.getD i 0

theorem stepArr_refl (st : GState) : StepArr st st :=
  ⟨id, le_refl _, le_refl _, le_refl _, fun _ => le_refl _⟩

theorem stepArr_trans {a b c : GState} (h1 : StepArr a b) (h2 : StepArr b c) : StepArr a c :=
  ⟨fun h => h2.1 (h1.1 h),
   le_trans h1.2.1 h2.2.1,
   le_trans h1.2.2.1 h2.2.2.1,
   le_trans h1.2.2.2.1 h2.2.2.2.1,
   fun i => le_trans (h1.2.2.2.2 i) (h2.2.2.2.2 i)⟩

theorem stepArr_of_same {st st' : GState} (h1 : st'.currentE = st.currentE)
    (h2 : st'.totalExtrusion = st.totalExtrusion) (h3 : st'.maxExtrusion = st.maxExtrusion) :
    StepArr st st' := by
  refine ⟨fun hinv => ?_, ?_, ?_, ?_, fun i => ?_⟩
  · exact ⟨by rw [h1, h2]; exact hinv.1, by rw [h1, h3]; exact hinv.2⟩
  · rw [h1]
  · rw [h2]
  · rw [h3]
  · rw [h3]

theorem stepArr_g0_g1 (env : Env) (st : GState) (x y z e f : Option ℚ) :
    StepArr st (g0_g1_command env st x y z e f) := by
  unfold g0_g1_command
  by_cases h : (0 : ℚ) < extrudeDelta st e
  · simp only [if_pos h]
    refine ⟨fun hinv => ?_, ?_, ?_, ?_, fun i => ?_⟩
    · obtain ⟨h1, h2⟩ := hinv
      exact ⟨by simp [List.length_set, h1], by simp [List.length_set, h2]⟩
    · simp [List.length_set]
    · simp [List.length_set]
    · simp [List.length_set]
    · exact getD_set_le _ _ _ (le_max_left _ _) i
  · simp only [if_neg h]
    exact stepArr_of_same rfl rfl rfl

theorem stepArr_g92 (st : GState) (x y z e : Option ℚ) : StepArr st (g92_command st x y z e) := by
  unfold g92_command
  cases e with
  | none => exact stepArr_refl st
  | some ev =>
    refine ⟨fun hinv => ?_, ?_, le_refl _, le_refl _, fun i => le_refl _⟩
    · obtain ⟨h1, h2⟩ := hinv
      exact ⟨by simp [List.length_set, h1], by simp [List.length_set, h2]⟩
    · simp [List.length_set]

theorem stepArr_t (env : Env) (st : GState) (t : ℤ) : StepArr st (t_command env st t) := by
  unfold t_command
  by_cases h : env.maxExtruders < t
  · simp only [if_pos h]
    exact stepArr_refl st
  · simp only [if_neg h]
    refine ⟨fun hinv => ?_, ?_, ?_, ?_, fun i => ?_⟩
    · obtain ⟨h1, h2⟩ := hinv
      constructor <;> simp only [length_extend_if]
      · rw [h1]
      · rw [h2]
    · simp only [length_extend_if]
      omega
    · simp only [length_extend_if]
      omega
    · simp only [length_extend_if]
      omega
    · simp only [getD_extend_if]
      exact le_refl _

theorem g2_g3_not_ok (st : GState) (x y i j e : Option ℚ) (st' : GState) :
    g2_g3_command st x y i j e ≠ .ok st' := by
  rcases i with _ | iv
  · simp [g2_g3_command]
  · rcases j with _ | jv
    · simp [g2_g3_command]
    · by_cases hae : st.absoluteE = true ∧ e = none
      · simp [g2_g3_command, hae]
      · rcases x with _ | xv <;> rcases y with _ | yv <;> simp [g2_g3_command, hae]

theorem stepArr_gDispatch (env : Env) (st : GState) (line : List Char) (g : ℤ) (st' : GState)
    (h : gDispatch env st line g = .ok st') : StepArr st st' := by
  unfold gDispatch at h
  by_cases h01 : g = 0 ∨ g = 1
  · rw [if_pos h01] at h
    injection h with h
    subst h
    exact stepArr_g0_g1 env st _ _ _ _ _
  rw [if_neg h01] at h
  by_cases h23 : g = 2 ∨ g = 3
  · rw [if_pos h23] at h
    exact absurd h (g2_g3_not_ok st _ _ _ _ _ st')
  rw [if_neg h23] at h
  by_cases h4 : g = 4
  · rw [if_pos h4] at h
    injection h with h
    subst h
    exact stepArr_of_same rfl rfl rfl
  rw [if_neg h4] at h
  by_cases h10 : g = 10
  · rw [if_pos h10] at h
    injection h with h
    subst h
    exact stepArr_of_same rfl rfl rfl
  rw [if_neg h10] at h
  by_cases h11 : g = 11
  · rw [if_pos h11] at h
    injection h with h
    subst h
    exact stepArr_of_same rfl rfl rfl
  rw [if_neg h11] at h
  by_cases h20 : g = 20
  · rw [if_pos h20] at h
    injection h with h
    subst h
    exact stepArr_of_same rfl rfl rfl
  rw [if_neg h20] at h
  by_cases h21 : g = 21
  · rw [if_pos h21] at h
    injection h with h
    subst h
    exact stepArr_of_same rfl rfl rfl
  rw [if_neg h21] at h
  by_cases h28 : g = 28
  · rw [if_pos h28] at h
    injection h with h
    subst h
    exact stepArr_of_same rfl rfl rfl
  rw [if_neg h28] at h
  by_cases h90 : g = 90
  · rw [if_pos h90] at h
    injection h with h
    subst h
    exact stepArr_of_same rfl rfl rfl
  rw [if_neg h90] at h
  by_cases h91 : g = 91
  · rw [if_pos h91] at h
    injection h with h
    subst h
    exact stepArr_of_same rfl rfl rfl
  rw [if_neg h91] at h
  by_cases h92 : g = 92
  · rw [if_pos h92] at h
    injection h with h
    subst h
    exact stepArr_g92 st _ _ _ _
  rw [if_neg h92] at h
  injection h with h
  subst h
  exact stepArr_refl st

theorem stepArr_mDispatch (st : GState) (line : List Char) (m : ℤ) (st' : GState)
    (h : mDispatch st line m = .ok st') : StepArr st st' := by
  unfold mDispatch at h
  by_cases h82 : m = 82
  · rw [if_pos h82] at h
    injection h with h
    subst h
    exact stepArr_of_same rfl rfl rfl
  rw [if_neg h82] at h
  by_cases h83 : m = 83
  · rw [if_pos h83] at h
    injection h with h
    subst h
    exact stepArr_of_same rfl rfl rfl
  rw [if_neg h83] at h
  by_cases h207 : m = 207 ∨ m = 208
  · rw [if_pos h207] at h
    rcases hS : getCodeFloat line 'S' with _ | sv <;> rw [hS] at h <;>
      rcases hF : getCodeFloat line 'F' with _ | fv <;> rw [hF] at h
    · injection h with h
      subst h
      exact stepArr_refl st
    · injection h with h
      subst h
      exact stepArr_refl st
    · injection h with h
      subst h
      exact stepArr_refl st
    · dsimp only at h
      by_cases hf0 : fv = 0
      · rw [if_pos hf0] at h
        exact absurd h (by simp)
      rw [if_neg hf0] at h
      by_cases hm7 : m = 207
      · rw [if_pos hm7] at h
        injection h with h
        subst h
        exact stepArr_of_same rfl rfl rfl
      · rw [if_neg hm7] at h
        injection h with h
        subst h
        exact stepArr_of_same rfl rfl rfl
  rw [if_neg h207] at h
  by_cases h220 : m = 220
  · rw [if_pos h220] at h
    rcases hS : getCodeInt line 'S' with _ | sv <;> rw [hS] at h
    · exact absurd h (by simp)
    · injection h with h
      subst h
      exact stepArr_of_same rfl rfl rfl
  rw [if_neg h220] at h
  by_cases h221 : m = 221
  · rw [if_pos h221] at h
    rcases hS : getCodeInt line 'S' with _ | sv <;> rw [hS] at h
    · exact absurd h (by simp)
    · injection h with h
      subst h
      exact stepArr_of_same rfl rfl rfl
  rw [if_neg h221] at h
  injection h with h
  subst h
  exact stepArr_refl st

theorem stepArr_dispatch (env : Env) (st : GState) (line : List Char) (st' : GState)
    (h : dispatch env st line = .ok st') : StepArr st st' := by
  unfold dispatch at h
  split at h
  · exact stepArr_gDispatch env st line _ st' h
  · split at h
    · exact stepArr_mDispatch st line _ st' h
    · split at h
      · injection h with h
        subst h
        exact stepArr_t env st _
      · injection h with h
        subst h
        exact stepArr_refl st

theorem commentStep_arrays (env : Env) (st : GState) (line : List Char) (st' : GState)
    (line' : List Char) (h : commentStep env st line = .ok (st', line')) :
    st'.currentE = st.currentE ∧ st'.totalExtrusion = st.totalExtrusion ∧
    st'.maxExtrusion = st.maxExtrusion := by
  unfold commentStep at h
  split at h
  · injection h with h
    simp only [Prod.mk.injEq] at h
    rw [← h.1]
    exact ⟨rfl, rfl, rfl⟩
  · split at h
    · cases h
    · injection h with h
      simp only [Prod.mk.injEq] at h
      rw [← h.1]
      exact ⟨rfl, rfl, rfl⟩
    · injection h with h
      simp only [Prod.mk.injEq] at h
      rw [← h.1]
      exact ⟨rfl, rfl, rfl⟩

theorem stepArr_interpretLine (env : Env) (st : GState) (line : List Char) (st' : GState)
    (h : interpretLine env st line = .ok st') : StepArr st st' := by
  unfold interpretLine at h
  split at h
  · cases h
  · rename_i st1 line1 hcs
    obtain ⟨h1, h2, h3⟩ := commentStep_arrays env st line st1 line1 hcs
    exact stepArr_trans (stepArr_of_same h1 h2 h3) (stepArr_dispatch env st1 line1 st' h)

theorem stepArr_runLines (env : Env) :
    ∀ (lines : List (List Char)) (st st' : GState),
      runLines env lines st = .ok st' → StepArr st st' := by
  intro lines
  induction lines with
  | nil =>
    intro st st' h
    injection h with h
    subst h
    exact stepArr_refl st
  | cons l rest ih =>
    intro st st' h
    unfold runLines at h
    split at h
    · cases h
    · rename_i st1 hint
      exact stepArr_trans (stepArr_interpretLine env st l st1 hint) (ih st1 st' h)

/-! ### Further helper lemmas and concrete callbacks -/

theorem vec_cancel (a u v : Vector3D) : a - u + v - v + u = a := by
  cases a
  cases u
  cases v
  simp only [Vector3D.sub_def, Vector3D.add_def, Vector3D.mk.injEq]
  refine ⟨?_, ?_, ?_⟩ <;> ring

/-- A progress callback that always succeeds. -/
def cbOk : ℚ → Except Unit Unit := fun _ => .ok ()

/-- A progress callback that always raises. -/
def cbFail : ℚ → Except Unit Unit := fun _ => .error ()

/-- A progress callback that raises on every periodic percentage but
succeeds on the terminal `100.0`. -/
def cbFailBelow : ℚ → Except Unit Unit := fun q => if q < 100 then .error () else .ok ()

/-- The loop `loadAux` never looks at the result of the periodic progress callback
(the source wraps the call in a bare `try/except: pass`), so any two
callbacks drive the loop identically. -/
theorem loadAux_cb_eq (env : Env) (flag : ℕ → Bool) (cb cb' : ℚ → Except Unit Unit) (total : ℕ) :
    ∀ (lines : List (List Char)) (i : ℕ) (st : GState),
      loadAux env flag cb total lines i st = loadAux env flag cb' total lines i st := by
  intro lines
  induction lines with
  | nil => intro i st; rfl
  | cons l rest ih =>
    intro i st
    unfold loadAux
    by_cases hf : flag i = true
    · rw [if_pos hf, if_pos hf]
    · rw [if_neg hf, if_neg hf]
      cases hint : interpretLine env st l <;> simp only [hint, ih]

/-- Aborting worker lemma for claim C6: if the abort flag reads `true`
when checked before some line `i + N` that exists, and the first `N` lines
process without another exception, the loop raises `AnalysisAborted` at
some check at or before that line. -/
theorem loadAux_abort (env : Env) (flag : ℕ → Bool) (cb : ℚ → Except Unit Unit) (total : ℕ) :
    ∀ (lines : List (List Char)) (st : GState) (i N : ℕ),
      flag (i + N) = true → N < lines.length →
      exceptOk (runLines env (lines.take N) st) = true →
      ∃ k, k ≤ N ∧ loadAux env flag cb total lines i st = .error (.analysisAborted, i + k) := by
  intro lines
  induction lines with
  | nil =>
    intro st i N _ hlen _
    exact absurd hlen (by simp)
  | cons l rest ih =>
    intro st i N hflag hlen hpre
    by_cases hfi : flag i = true
    · refine ⟨0, Nat.zero_le N, ?_⟩
      unfold loadAux
      rw [if_pos hfi, Nat.add_zero]
    · rcases N with _ | N'
      · exact absurd hflag hfi
      · rw [List.take_succ_cons] at hpre
        cases hint : interpretLine env st l with
        | error e =>
          exfalso
          unfold runLines at hpre
          rw [hint] at hpre
          simp [exceptOk] at hpre
        | ok st1 =>
          unfold runLines at hpre
          rw [hint] at hpre
          obtain ⟨k, hk, hres⟩ := ih st1 (i + 1) N'
            (by rw [show i + 1 + N' = i + (N' + 1) by omega]; exact hflag)
            (by simpa using Nat.lt_of_succ_lt_succ hlen) hpre
          refine ⟨k + 1, by omega, ?_⟩
          unfold loadAux
          rw [if_neg hfi]
          simp only [hint]
          rw [show i + (k + 1) = i + 1 + k by omega]
          exact hres

/-! ### The claims -/

/-- C1 (code bug).  The claim says a `G2`/`G3` whose start equals its
target with zero computed sweep gets a full-circle correction (nonzero
sweep, at least one segment).  In the code, the degenerate-sweep guard at
line 284 reads `self._memory.position`, an attribute that does not exist
(the state object is the local `memory`, whose field is `pos`), so the
command raises `AttributeError` before any segment is emitted.  Here the
interpreter at the origin processes `G2 X0 Y0 I-5 J0 E0` — start equals
target, offset `(-5, 0)` — and the scan dies with that exception instead
of sweeping a full circle. -/
theorem c1_g2_degenerate_crashes :
    interpretLine env0 gInit (charsOf "G2 X0 Y0 I-5 J0 E0") = .error .attributeError := by
  decide

/-- C2 (counterexample).  The claim says a relative-mode linear move
leaves unspecified axes with zero displacement.  In the code unspecified
axes default to the *current* coordinate and are then added, so after
moving to `x = 10` and switching to relative mode, `G1 Y5` lands on
`x = 20`, not the `(10, 5, 0)` that "current + (0, 5, 0) * scale" (zero
contribution for the unspecified `X` and `Z`) would give. -/
theorem c2_counterexample :
    (runLines env0 [charsOf "G1 X10", charsOf "G91", charsOf "G1 Y5"] gInit).map
      (fun s => s.pos) = .ok ⟨20, 5, 0⟩ ∧
    (⟨20, 5, 0⟩ : Vector3D) ≠ ⟨10, 0, 0⟩ + (⟨0, 5, 0⟩ : Vector3D) * (1 : ℚ) := by
  decide

/-- C2 (amended).  For every linear move processed in relative
position mode, the new position is the current position plus the target
vector times the unit scale, where axes not specified on the line default
to the *current coordinate value* (the same defaulting as absolute mode),
not to zero. -/
theorem c2_relative_unspecified_axes (env : Env) (st : GState) (x y z e f : Option ℚ)
    (h : st.posAbs = false) :
    (g0_g1_command env st x y z e f).pos =
      st.pos + (⟨x.getD st.pos.x, y.getD st.pos.y, z.getD st.pos.z⟩ : Vector3D) * st.scale := by
  simp [g0_g1_command, h]

theorem c2_relative_unspecified_axes_witness :
    { gInit with posAbs := false }.posAbs = false ∧
    (g0_g1_command env0 { gInit with posAbs := false } none (some 5) none none none).pos =
      { gInit with posAbs := false }.pos +
        (⟨{ gInit with posAbs := false }.pos.x, 5,
          { gInit with posAbs := false }.pos.z⟩ : Vector3D) * { gInit with posAbs := false }.scale :=
  ⟨rfl, c2_relative_unspecified_axes env0 { gInit with posAbs := false } none (some 5)
    none none none rfl⟩

/-- C3 (code bug).  The claim says the `G92` X/Y/Z offset rebase
happens whether or not `E` is present.  In the code the rebase statement
is indented inside the `if e is not None:` block (lines 439-444), so
`G92 X0` issued at position `(5, 2, 0)` changes nothing at all: the state
after equals the state before, and in particular the accumulated offset
stays `(0, 0, 0)` instead of being rebased to `(5, 2, 0)`. -/
theorem c3_g92_rebase_requires_e :
    interpretLine env0 { gInit with pos := ⟨5, 2, 0⟩ } (charsOf "G92 X0") =
      .ok { gInit with pos := ⟨5, 2, 0⟩ } ∧
    { gInit with pos := ⟨5, 2, 0⟩ }.posOffset = ⟨0, 0, 0⟩ := by
  decide

/-- C4 (code bug).  The claim says `M221 S<s>` sets the flowrate
multiplier to `s/100` and subsequent `E` values are scaled by it.  The
code assigns to the misspelled attribute `flowrate_ultiplicator` (line
462), so after `M221 S200` the multiplier actually read by moves is still
`1`, the misspelled field holds `2`, and `G1 X1 E1` books an extrusion of
`1` where the claim demands `2`. -/
theorem c4_m221_flow_override_ineffective :
    (runLines env0 [charsOf "M221 S200", charsOf "G1 X1 E1"] gInit).map
      (fun s => (s.flowrate_multiplicator, s.flowrate_ultiplicator, s.totalExtrusion)) =
      .ok (1, 2, [1]) := by
  decide

/-- C5 (counterexample).  The claim says every decode failure of a
compressed profile comment is caught inside the interpreter.  The comment
`;CURA_PROFILE_STRING:A` has a one-character base64 payload ("incorrect
padding"), and the resulting `binascii.Error` propagates out of the
interpreter uncaught instead of being treated as "no metadata". -/
theorem c5_counterexample :
    interpretLine env0 gInit (charsOf ";CURA_PROFILE_STRING:A") = .error .binasciiError := by
  decide

/-- An environment whose inflate oracle always fails, standing for a
corrupt compressed stream handed to `zlib.decompress`. -/
def envZlibFail : Env := { env0 with decompress := fun _ => .error () }

/-- C5 (amended).  Failures of the compressed-profile decode pipeline —
any error of `parseCuraProfileString`, i.e. bad base64 encoding
(`binasciiError`), a corrupt compressed stream (`zlibError` from the
inflate oracle) or a record without `=` (`valueError` from tuple
unpacking) — are *not* caught inside the interpreter: the exception
propagates out of `interpretLine` to the caller.  Only the final float
conversion of a successfully decoded `filament_diameter` value is
guarded.  The witness exhibits all three failure kinds. -/
theorem c5_decode_error_propagates (env : Env) (st : GState) (payload : List Char) (err : PyErr)
    (h1 : trimChars (curaColonChars ++ payload) = curaColonChars ++ payload)
    (h2 : parseCuraProfileString env (curaColonChars ++ payload) curaColonChars.length
      = .error err) :
    interpretLine env st (';' :: (curaColonChars ++ payload)) = .error err := by
  have hcd : commentDiameter env (curaColonChars ++ payload) = .error err := by
    have hfd : fdChars.isPrefixOf (curaColonChars ++ payload) = false := rfl
    have hcp : curaChars.isPrefixOf (curaColonChars ++ payload) = true := rfl
    unfold commentDiameter
    rw [if_neg (by rw [hfd]; simp), if_pos (Or.inl hcp), if_pos hcp, h2]
  have hcs : commentStep env st (';' :: (curaColonChars ++ payload)) = .error err := by
    show (match commentDiameter env (trimChars (curaColonChars ++ payload)) with
          | .error e => .error e
          | .ok none => .ok (st, [])
          | .ok (some d) => .ok ({ st with filamentDiameter := d }, [])) =
        (.error err : Except PyErr (GState × List Char))
    rw [h1, hcd]
  unfold interpretLine
  rw [hcs]

theorem c5_decode_error_propagates_witness :
    (parseCuraProfileString env0 (curaColonChars ++ charsOf "AB") curaColonChars.length
       = .error .binasciiError ∧
     interpretLine env0 gInit (';' :: (curaColonChars ++ charsOf "AB"))
       = .error .binasciiError) ∧
    (parseCuraProfileString envZlibFail (curaColonChars ++ charsOf "AAAA") curaColonChars.length
       = .error .zlibError ∧
     interpretLine envZlibFail gInit (';' :: (curaColonChars ++ charsOf "AAAA"))
       = .error .zlibError) ∧
    (parseCuraProfileString env0 (curaColonChars ++ charsOf "AAAA") curaColonChars.length
       = .error .valueError ∧
     interpretLine env0 gInit (';' :: (curaColonChars ++ charsOf "AAAA"))
       = .error .valueError) :=
  ⟨⟨by decide,
    c5_decode_error_propagates env0 gInit (charsOf "AB") .binasciiError (by decide) (by decide)⟩,
   ⟨by decide,
    c5_decode_error_propagates envZlibFail gInit (charsOf "AAAA") .zlibError (by decide)
      (by decide)⟩,
   ⟨by decide,
    c5_decode_error_propagates env0 gInit (charsOf "AAAA") .valueError (by decide) (by decide)⟩⟩

/-- C6 (confirmed).  If the abort flag reads `true` at the check
before line `N` (0-based) of a scan whose first `N` lines process without
another exception, the scan raises the distinguished `AnalysisAborted`
signal at a line boundary at or before that one (so at most `N` lines are
ever processed), the signal propagates to the caller, and no aggregate
result is produced. -/
theorem c6_abort_raises (env : Env) (flag : ℕ → Bool) (cb : ℚ → Except Unit Unit)
    (lines : List (List Char)) (st : GState) (N : ℕ)
    (hN : flag N = true) (hlen : N < lines.length)
    (hpre : exceptOk (runLines env (lines.take N) st) = true) :
    ∃ k, k ≤ N ∧ loadList env flag cb lines st = .error (.analysisAborted, k) := by
  obtain ⟨k, hk, h⟩ := loadAux_abort env flag cb lines.length lines st 0 N
    (by simpa using hN) hlen hpre
  refine ⟨k, hk, ?_⟩
  unfold loadList
  rw [show (0 : ℕ) + k = k from Nat.zero_add k] at h
  rw [h]

theorem c6_abort_raises_witness :
    (fun i => decide (1 ≤ i)) 1 = true ∧
    1 < [charsOf "G1 X1", charsOf "G1 Y2", charsOf "G1 Z3"].length ∧
    exceptOk (runLines env0 ([charsOf "G1 X1", charsOf "G1 Y2", charsOf "G1 Z3"].take 1) gInit)
      = true ∧
    ∃ k, k ≤ 1 ∧ loadList env0 (fun i => decide (1 ≤ i)) cbOk
      [charsOf "G1 X1", charsOf "G1 Y2", charsOf "G1 Z3"] gInit = .error (.analysisAborted, k) :=
  ⟨by decide, by decide, by decide,
   c6_abort_raises env0 (fun i => decide (1 ≤ i)) cbOk
     [charsOf "G1 X1", charsOf "G1 Y2", charsOf "G1 Z3"] gInit 1 (by decide) (by decide)
     (by decide)⟩

/-- C7 (confirmed).  A tool-select line (no comment, no `G` or `M`
word, an integer `T` word) whose index exceeds the configured maximum
leaves the whole machine state unchanged — the same state object is
returned, so the active tool, the position offset and all three per-tool
arrays keep their values — and no exception is raised (the result is
`.ok`). -/
theorem c7_toolselect_out_of_range_ignored (env : Env) (st : GState) (line : List Char) (t : ℤ)
    (hsemi : line.findIdx? (fun c => c = ';') = none)
    (hG : getCodeInt line 'G' = none) (hM : getCodeInt line 'M' = none)
    (hT : getCodeInt line 'T' = some t) (hmax : env.maxExtruders < t) :
    interpretLine env st line = .ok st := by
  have hcs : commentStep env st line = .ok (st, line) := by
    unfold commentStep
    rw [hsemi]
  unfold interpretLine
  rw [hcs]
  show dispatch env st line = .ok st
  unfold dispatch
  rw [hG, hM, hT]
  show Except.ok (t_command env st t) = .ok st
  unfold t_command
  rw [if_pos hmax]

theorem c7_toolselect_out_of_range_ignored_witness :
    (charsOf "T11").findIdx? (fun c => c = ';') = none ∧
    getCodeInt (charsOf "T11") 'G' = none ∧
    getCodeInt (charsOf "T11") 'M' = none ∧
    getCodeInt (charsOf "T11") 'T' = some 11 ∧
    env0.maxExtruders < 11 ∧
    interpretLine env0 gInit (charsOf "T11") = .ok gInit :=
  ⟨by decide, by decide, by decide, by decide, by decide,
   c7_toolselect_out_of_range_ignored env0 gInit (charsOf "T11") 11 (by decide) (by decide)
     (by decide) (by decide) (by decide)⟩

/-- C8 (counterexample).  The claim says a callback exception on any
progress invocation, including the final one, never aborts the scan.  The
final invocation with `100.0` is not guarded: with a callback that always
raises, a one-line scan whose line processes fine still ends in an error
and produces no aggregate result. -/
theorem c8_counterexample :
    loadList env0 (fun _ => false) cbFail [charsOf "G1 X1"] gInit
      = .error (.callbackError, 1) := by
  decide

/-- C8 (amended).  The progress callback is invoked periodically
(every 1000 lines) with a float percentage and once more with the
terminal `100.0`; exceptions from the periodic invocations are swallowed
— the scan outcome depends on the callback only through its behaviour at
`100.0` — but an exception from the final invocation propagates, and the
scan then never returns a result. -/
theorem c8_callback_errors (env : Env) (flag : ℕ → Bool) (cb cb' : ℚ → Except Unit Unit)
    (lines : List (List Char)) (st : GState) :
    (cb 100 = cb' 100 → loadList env flag cb lines st = loadList env flag cb' lines st) ∧
    (cb 100 = .error () → ∀ r, loadList env flag cb lines st ≠ .ok r) := by
  constructor
  · intro h100
    unfold loadList
    rw [loadAux_cb_eq env flag cb cb' lines.length lines 0 st, h100]
  · intro herr r
    unfold loadList
    cases hl : loadAux env flag cb lines.length lines 0 st with
    | error e => simp
    | ok stf => rw [herr]; simp

theorem c8_callback_errors_witness :
    (cbFailBelow 100 = cbOk 100 →
      loadList env0 (fun _ => false) cbFailBelow [charsOf "G1 X1"] gInit =
        loadList env0 (fun _ => false) cbOk [charsOf "G1 X1"] gInit) ∧
    (cbFail 100 = .error () → ∀ r,
      loadList env0 (fun _ => false) cbFail [charsOf "G1 X1"] gInit ≠ .ok r) ∧
    cbFailBelow 100 = cbOk 100 ∧ cbFail 100 = .error () ∧
    loadList env0 (fun _ => false) cbFailBelow [charsOf "G1 X1"] gInit =
      loadList env0 (fun _ => false) cbOk [charsOf "G1 X1"] gInit :=
  ⟨(c8_callback_errors env0 (fun _ => false) cbFailBelow cbOk [charsOf "G1 X1"] gInit).1,
   (c8_callback_errors env0 (fun _ => false) cbFail cbOk [charsOf "G1 X1"] gInit).2,
   by decide, by decide,
   (c8_callback_errors env0 (fun _ => false) cbFailBelow cbOk [charsOf "G1 X1"] gInit).1
     (by decide)⟩

/-- C9 (confirmed).  Across every sequence of interpreted lines
starting from a state whose three tool-indexed arrays share one length,
the arrays still share one length afterwards, no array has shrunk, and
each tool's running-maximum extrusion entry has not decreased. -/
theorem c9_tool_arrays_invariant (env : Env) (lines : List (List Char)) (st st' : GState)
    (hinv : ArrInv st) (hrun : runLines env lines st = .ok st') :
    ArrInv st' ∧
    st.currentE.length ≤ st'.currentE.length ∧
    st.totalExtrusion.length ≤ st'.totalExtrusion.length ∧
    st.maxExtrusion.length ≤ st'.maxExtrusion.length ∧
    ∀ i, st.maxExtrusion.getD i 0 ≤ st'.maxExtrusion.getD i 0 := by
  obtain ⟨h1, h2, h3, h4, h5⟩ := stepArr_runLines env lines st st' hrun
  exact ⟨h1 hinv, h2, h3, h4, h5⟩

theorem c9_tool_arrays_invariant_witness :
    ArrInv gInit ∧
    (ArrInv (t_command env0 gInit 1) ∧
     gInit.currentE.length ≤ (t_command env0 gInit 1).currentE.length ∧
     gInit.totalExtrusion.length ≤ (t_command env0 gInit 1).totalExtrusion.length ∧
     gInit.maxExtrusion.length ≤ (t_command env0 gInit 1).maxExtrusion.length ∧
     ∀ i, gInit.maxExtrusion.getD i 0 ≤ (t_command env0 gInit 1).maxExtrusion.getD i 0) :=
  ⟨⟨rfl, rfl⟩,
   c9_tool_arrays_invariant env0 [charsOf "T1"] gInit (t_command env0 gInit 1) ⟨rfl, rfl⟩
     (by decide)⟩

/-- Exact-arithmetic cancellation of the nozzle-offset bookkeeping: for
any in-range tool index `t` and any state whose active tool is also in
range, selecting tool `t` and then reselecting the previously active tool
(with no intervening `G92`) computes
`off - ofs(c) + ofs(t) - ofs(t) + ofs(c)`, which over this development's
rational idealization of `Vector3D` arithmetic equals `off` exactly.  The
source performs the same chain in IEEE-754 doubles, where each `+`/`-`
rounds and the cancellation is only approximate (e.g. with
`off.x = 1 + 2^-52`, outgoing offset `2^-53` and incoming offset `0`, the
double computation returns `1.0`), so this lemma documents the idealized
algebra of the bookkeeping, not a bit-exact property of the program. -/
theorem tool_switch_roundtrip_exact (env : Env) (st : GState) (t : ℕ)
    (ht : (t : ℤ) ≤ env.maxExtruders) (hc : (st.currentExtruder : ℤ) ≤ env.maxExtruders) :
    (t_command env (t_command env st (t : ℤ)) (st.currentExtruder : ℤ)).posOffset
      = st.posOffset := by
  unfold t_command
  rw [if_neg (not_lt.mpr ht), if_neg (not_lt.mpr hc)]
  simp only [Int.toNat_natCast]
  exact vec_cancel _ _ _

theorem tool_switch_roundtrip_exact_inst :
    ((1 : ℕ) : ℤ) ≤ env0.maxExtruders ∧
    ((gInit.currentExtruder : ℕ) : ℤ) ≤ env0.maxExtruders ∧
    (t_command env0 (t_command env0 gInit ((1 : ℕ) : ℤ)) (gInit.currentExtruder : ℤ)).posOffset
      = gInit.posOffset :=
  ⟨by decide, by decide, tool_switch_roundtrip_exact env0 gInit 1 (by decide) (by decide)⟩

end GcodeInterp
